import Mathlib

/-!
Shallow embedding of the SIGMA Atlas-style workflow engine
(source file: intelligent_agents/workflow_engine.py).

Python dictionaries are modelled as the Entries type (an association
list) over a value type Val mirroring JSON-like Python values (None,
bool, int, str, dict).  Mutation of step and workflow objects is
modelled by explicit state passing; the per-step mutable fields
(attempts, error, status, end time) are threaded through the retry loop
and written back into the step record at each exit point, exactly
reflecting the assignments performed by the Python loop.  Wall-clock
timestamps are modelled as booleans recording whether the corresponding
field was assigned; the durations passed to time.sleep are collected
into an explicit trace list.

Tool callables are external collaborators: a registered tool is a
function from the attempt index (modelling the external state that can
make a tool behave differently across retries), the resolved parameters
and the context to a result, where an exceptional return models a raised
Python exception.  The condition evaluator in the source delegates to
the Python eval builtin over attacker-supplied strings; it is modelled
as an oracle function supplied in the engine configuration, since every
claim depends only on its boolean outcome.
-/

mutual

/-- Python-like values: None, bool, int, str and dict. -/
inductive Val where
  | vNone : Val
  | vBool (b : Bool) : Val
  | vInt (i : Int) : Val
  | vStr (s : String) : Val
  | vDict (d : Entries) : Val

/-- A Python dict from string keys to values, as an association list. -/
inductive Entries where
  | nil : Entries
  | cons (k : String) (v : Val) (rest : Entries) : Entries

end

/-- The shared workflow context is a Python dict. -/
abbrev Ctx := Entries

/-- Python dict.get with a default value (first matching key wins). -/
def alGetD : Entries → String → Val → Val
  | .nil, _, d => d
  | .cons k' v rest, k, d => if k' = k then v else alGetD rest k d

/-- Python dict.get returning None when the key is absent. -/
def alGet? : Entries → String → Option Val
  | .nil, _ => none
  | .cons k' v rest, k => if k' = k then some v else alGet? rest k

/-- Python dict item assignment: overwrite in place or append at the end. -/
def ctxSet : Entries → String → Val → Entries
  | .nil, k, v => .cons k v .nil
  | .cons k' v' rest, k, v =>
      if k' = k then .cons k' v rest else .cons k' v' (ctxSet rest k v)

/-- The three context writes performed after a successful step
(source lines 285 to 287): the result is stored under the step id and
under the rolling keys prev_result and last_success. -/
def ctxStore (ctx : Ctx) (id : String) (r : Val) : Ctx :=
  ctxSet (ctxSet (ctxSet ctx id r) "prev_result" r) "last_success" r

/-- Python truthiness of a value. -/
def pyTruthy : Val → Bool
  | .vNone => false
  | .vBool b => b
  | .vInt i => !(i == 0)
  | .vStr s => !(s == "")
  | .vDict .nil => false
  | .vDict (.cons _ _ _) => true

mutual

/-- Python repr rendering of a value.  String escaping inside repr is
not modelled; no claim depends on it. -/
def pyRepr : Val → String
  | .vNone => "None"
  | .vBool true => "True"
  | .vBool false => "False"
  | .vInt i => toString i
  | .vStr s => "'" ++ s ++ "'"
  | .vDict d => "\x7b" ++ entriesRepr d ++ "\x7d"

/-- Python repr rendering of the comma-separated items of a dict. -/
def entriesRepr : Entries → String
  | .nil => ""
  | .cons k v .nil => "'" ++ k ++ "': " ++ pyRepr v
  | .cons k v rest => "'" ++ k ++ "': " ++ pyRepr v ++ ", " ++ entriesRepr rest

end

/-- Python str of a value: the string itself for strings, repr-style
rendering otherwise (so the empty dict renders as a brace pair). -/
def pyStr : Val → String
  | .vStr s => s
  | v => pyRepr v

/-- Python type name of a value (used in attribute-error messages). -/
def pyTypeName : Val → String
  | .vNone => "NoneType"
  | .vBool _ => "bool"
  | .vInt _ => "int"
  | .vStr _ => "str"
  | .vDict _ => "dict"

/-- Python str.split on a single separator character. -/
def splitOn (sep : Char) : List Char → List (List Char)
  | [] => [[]]
  | c :: rest =>
      let r := splitOn sep rest
      if c = sep then [] :: r
      else
        match r with
        | h :: t => (c :: h) :: t
        | [] => [[c]]

/-- Substring membership test on character lists. -/
def listContainsSub : List Char → List Char → Bool
  | [], sub => sub.isEmpty
  | c :: rest, sub => sub.isPrefixOf (c :: rest) || listContainsSub rest sub

/-- Python substring membership test on strings. -/
def hasSub (s sub : String) : Bool := listContainsSub s.data sub.data

/-- One attempt of the regular expression used at source line 360
(double opening brace, one or more non-closing-brace characters, double
closing brace) anchored at the start of the character list: on a match,
return the captured name and the characters after the match. -/
def tryMatchAt (cs : List Char) : Option (String × List Char) :=
  match cs with
  | '\x7b' :: '\x7b' :: rest =>
      match rest.takeWhile (fun c => !(c == '\x7d')),
            rest.dropWhile (fun c => !(c == '\x7d')) with
      | [], _ => none
      | name, '\x7d' :: '\x7d' :: tail => some (String.mk name, tail)
      | _, _ => none
  | _ => none

/-- Left-to-right scan collecting all non-overlapping matches of the
placeholder pattern; on a failed match the scan advances one character,
as the regular expression engine does.  The fuel is the remaining scan
length, which strictly decreases at every step. -/
def findMatchesAux : Nat → List Char → List String
  | 0, _ => []
  | _ + 1, [] => []
  | n + 1, c :: rest =>
      match tryMatchAt (c :: rest) with
      | some (name, tail) => name :: findMatchesAux n tail
      | none => findMatchesAux n rest

/-- re.findall of the placeholder pattern over a string. -/
def findMatches (s : String) : List String := findMatchesAux s.data.length s.data

/-- Python str.replace (all occurrences, left to right, non-overlapping),
fuelled by the scan length.  An empty pattern falls through to the
copy branch (the source never calls replace with an empty pattern). -/
def replaceAllAux : Nat → List Char → List Char → List Char → List Char
  | 0, s, _, _ => s
  | _ + 1, [], _, _ => []
  | n + 1, c :: rest, pat, rep =>
      if pat.isPrefixOf (c :: rest) && !pat.isEmpty then
        rep ++ replaceAllAux n (List.drop pat.length (c :: rest)) pat rep
      else
        c :: replaceAllAux n rest pat rep

/-- Python str.replace on strings. -/
def replaceAllStr (s pat rep : String) : String :=
  String.mk (replaceAllAux s.data.length s.data pat.data rep.data)

/-- The dotted-path descent of source lines 365 to 367: starting from the
context dict, each path component is looked up with dict.get defaulting
to an empty dict; reaching a non-dict value turns the cursor into None,
and None is absorbing for the remaining components. -/
def dottedLookup : List String → Val → Val
  | [], v => v
  | p :: rest, v =>
      match v with
      | .vDict d => dottedLookup rest (alGetD d p (.vDict .nil))
      | _ => .vNone

/-- Substitution of a single extracted placeholder name into a parameter
value string (source lines 362 to 372): a dotted name descends through
the context and substitutes the Python str of the reached value, with
None rendered as the empty string; a plain name substitutes the Python
str of the context entry, defaulting to the empty string. -/
def substOne (ctx : Ctx) (value : String) (m : String) : String :=
  if m.data.contains '.' then
    replaceAllStr value ("\x7b\x7b" ++ m ++ "\x7d\x7d")
      (match dottedLookup ((splitOn '.' m.data).map String.mk) (.vDict ctx) with
       | .vNone => ""
       | v => pyStr v)
  else
    replaceAllStr value ("\x7b\x7b" ++ m ++ "\x7d\x7d")
      (pyStr (alGetD ctx m (.vStr "")))

/-- Resolution of one string parameter value against the context, with
the context threaded through explicitly: every context access in the
source is a read, so the returned context is the input context.  The
guard reproduces the source check that the value contains both a double
opening and a double closing brace before any matching is attempted. -/
def resolveValueS (value : String) (ctx : Ctx) : String × Ctx :=
  if hasSub value "\x7b\x7b" && hasSub value "\x7d\x7d" then
    ((findMatches value).foldl (substOne ctx) value, ctx)
  else
    (value, ctx)

/-- The parameter resolver, source lines 350 to 378, with the context
threaded through in state-passing style.  The accumulator models the
resolved dict being built by item assignment; non-string values pass
through unchanged. -/
def resolveParamsS : Entries → Entries → Ctx → Entries × Ctx
  | .nil, resolved, ctx => (resolved, ctx)
  | .cons k (.vStr s) rest, resolved, ctx =>
      match resolveValueS s ctx with
      | (s', ctx') => resolveParamsS rest (ctxSet resolved k (.vStr s')) ctx'
  | .cons k v rest, resolved, ctx => resolveParamsS rest (ctxSet resolved k v) ctx

/-- The parameter resolver as used by the engine. -/
def resolveParams (params : Entries) (ctx : Ctx) : Entries :=
  (resolveParamsS params .nil ctx).1

/-- Step statuses, from the StepStatus enum. -/
inductive StepStatus where
  | pending | running | success | failed | skipped
deriving DecidableEq, Repr

/-- Workflow statuses, from the WorkflowStatus enum. -/
inductive WorkflowStatus where
  | pending | running | completed | failed | paused
deriving DecidableEq, Repr

/-- A workflow step (class WorkflowStep), including its mutable
execution state.  The two time fields record whether the corresponding
datetime assignment has happened. -/
structure Step where
  step_id : String
  action : String
  tool : String
  params : Entries := .nil
  condition : Option String := none
  retry_count : Nat := 3
  status : StepStatus := .pending
  result : Option Val := none
  error : Option String := none
  attempts : Nat := 0
  startTimeSet : Bool := false
  endTimeSet : Bool := false

/-- A workflow (class Workflow). -/
structure Workflow where
  workflow_id : String
  name : String
  description : String := ""
  steps : List Step := []
  status : WorkflowStatus := .pending
  context : Ctx := .nil
  current_step_index : Nat := 0
  startTimeSet : Bool := false
  endTimeSet : Bool := false

/-- A registered tool callable.  The Nat argument is the attempt index
for the containing step, modelling the external state that lets a real
tool behave differently on different invocations; an error return
models a raised exception. -/
def ToolFun := Nat → Entries → Ctx → Except String Val

/-- Tool registry lookup (dict.get on the registry). -/
def regGet? : List (String × ToolFun) → String → Option ToolFun
  | [], _ => none
  | (k, f) :: rest, k' => if k = k' then some f else regGet? rest k'

/-- Engine configuration: the tool registry and the condition-evaluator
oracle standing in for the eval-based _evaluate_condition. -/
structure EngineCfg where
  registry : List (String × ToolFun)
  evalCond : String → Ctx → Bool

/-- _execute_step, source lines 336 to 348: resolve the parameters, look
the tool up in the registry, raise an unknown-tool exception if absent,
otherwise invoke the tool. -/
def execStep (cfg : EngineCfg) (s : Step) (ctx : Ctx) (attempt : Nat) :
    Except String Val :=
  match regGet? cfg.registry s.tool with
  | none => .error ("Unknown tool: " ++ s.tool)
  | some f => f attempt (resolveParams s.params ctx) ctx

/-- The acceptance test applied to a tool invocation, source lines 279
to 294: a raised exception propagates; otherwise the result must be
truthy and its success entry truthy, else an exception carrying the
error entry (or the fixed fallback messages) is raised and caught. -/
def checkResult : Except String Val → Except String Val
  | .error e => .error e
  | .ok r =>
      if pyTruthy r then
        match r with
        | .vDict d =>
            if pyTruthy (alGetD d "success" (.vBool false)) then .ok (.vDict d)
            else .error (pyStr (alGetD d "error" (.vStr "Unknown error")))
        | v => .error (pyTypeName v ++ " object has no attribute get")
      else .error "No result"

/-- Result of running the retry loop for one step. -/
structure StepLoopResult where
  step : Step
  ctx : Ctx
  sleeps : List Nat
  success : Bool

/-- The retry loop of source lines 272 to 304.  The list argument is the
Python range over attempt indices; the following arguments carry the
step fields mutated inside the loop (attempts, error, status, end-time
flag), written back into the step record at each exit.  On an accepted
result the step becomes successful and the three context writes happen;
on a failure the error is recorded and, when further attempts remain
(attempt strictly below retry_count minus one), a backoff sleep of two
to the power of the attempt index is appended to the sleep trace. -/
def retryLoop (cfg : EngineCfg) (ctx : Ctx) (s : Step) :
    List Nat → Nat → Option String → StepStatus → Bool → List Nat →
    StepLoopResult
  | [], att, err, st, et, sleeps =>
      ⟨{ s with
          attempts := att, error := err, status := st, endTimeSet := et },
       ctx, sleeps, false⟩
  | attempt :: restA, _, err, st, et, sleeps =>
      match checkResult (execStep cfg s ctx attempt) with
      | .ok result =>
          ⟨{ s with
              attempts := attempt + 1, error := err, result := some result,
              status := .success, endTimeSet := true },
           ctxStore ctx s.step_id result, sleeps, true⟩
      | .error e =>
          if attempt < s.retry_count - 1 then
            retryLoop cfg ctx s restA (attempt + 1) (some e) st et
              (sleeps ++ [2 ^ attempt])
          else
            retryLoop cfg ctx s restA (attempt + 1) (some e) .failed true sleeps

/-- Whether the condition gate of source line 258 skips the step: the
condition string must be present and truthy and the evaluator must
return false. -/
def condSkip (cfg : EngineCfg) (s : Step) (ctx : Ctx) : Bool :=
  match s.condition with
  | none => false
  | some c => !(c == "") && !(cfg.evalCond c ctx)

/-- Output of the main step loop. -/
structure LoopOut where
  steps : List Step
  ctx : Ctx
  failed : Bool
  idx : Nat
  sleeps : List Nat

/-- Prepend a finished step onto a loop output. -/
def consStep (s : Step) (o : LoopOut) : LoopOut := { o with steps := s :: o.steps }

/-- The main loop of execute_workflow, source lines 254 to 309: each
iteration records the cursor, skips the step when its condition gate
fails, otherwise marks it running and runs the retry loop; a step that
did not succeed marks the workflow failed and stops, leaving the
remaining steps untouched. -/
def runSteps (cfg : EngineCfg) :
    List Step → Nat → Ctx → Nat → List Nat → LoopOut
  | [], _, ctx, idx, sleeps => ⟨[], ctx, false, idx, sleeps⟩
  | s :: rest, i, ctx, _, sleeps =>
      if condSkip cfg s ctx then
        consStep { s with status := .skipped } (runSteps cfg rest (i + 1) ctx i sleeps)
      else
        match retryLoop cfg ctx { s with status := .running, startTimeSet := true }
            (List.range s.retry_count) s.attempts s.error .running s.endTimeSet
            sleeps with
        | ⟨s', ctx', sleeps', true⟩ =>
            consStep s' (runSteps cfg rest (i + 1) ctx' i sleeps')
        | ⟨s', ctx', sleeps', false⟩ => ⟨s' :: rest, ctx', true, i, sleeps'⟩

/-- The final report returned by execute_workflow (the execution_time
float is wall-clock time and is not modelled). -/
structure ExecReport where
  success : Bool
  workflow : Workflow
  final_result : Option Val

/-- A report together with the trace of backoff sleep durations. -/
structure ExecOutcome where
  report : ExecReport
  sleeps : List Nat

/-- execute_workflow, source lines 244 to 334: mark the workflow running,
drive the main loop, mark the workflow completed unless the loop set it
failed, and assemble the report.  The update callback defaults to None
in the source and is not modelled; the outer exception handler is
unreachable because every exception inside the loop is caught there. -/
def executeWorkflow (cfg : EngineCfg) (w : Workflow) : ExecOutcome :=
  match runSteps cfg w.steps 0 w.context w.current_step_index [] with
  | out =>
      { report :=
          { success := decide ((if out.failed then WorkflowStatus.failed
                                else WorkflowStatus.completed) = .completed)
          , workflow :=
              { w with
                  steps := out.steps, context := out.ctx
                , status := if out.failed then .failed else .completed
                , current_step_index := out.idx
                , startTimeSet := true, endTimeSet := true }
          , final_result := alGet? out.ctx "last_success" }
      , sleeps := out.sleeps }

/-! ## Helper lemmas about the embedded operations -/

/-- Prepend a list of finished steps onto a loop output. -/
def consSteps (ss : List Step) (o : LoopOut) : LoopOut := { o with steps := ss ++ o.steps }

/-- Structural induction for dicts (the mutual recursor specialised to a
trivial motive on values). -/
theorem Entries.inductionOn {P : Entries → Prop} (hnil : P .nil)
    (hcons : ∀ k v rest, P rest → P (.cons k v rest)) : ∀ e, P e
  | .nil => hnil
  | .cons k v rest => hcons k v rest (Entries.inductionOn hnil hcons rest)

theorem alGet?_ctxSet_self (c : Entries) (k : String) (v : Val) :
    alGet? (ctxSet c k v) k = some v := by
  induction c using Entries.inductionOn with
  | hnil => simp [ctxSet, alGet?]
  | hcons k' v' rest ih =>
      by_cases h : k' = k
      · simp [ctxSet, alGet?, h]
      · simp [ctxSet, alGet?, h, ih]

theorem alGet?_ctxSet_ne (c : Entries) (k k' : String) (v : Val) (h : k' ≠ k) :
    alGet? (ctxSet c k v) k' = alGet? c k' := by
  have hkk : ¬ k = k' := fun hh => h hh.symm
  induction c using Entries.inductionOn with
  | hnil => simp only [ctxSet, alGet?, if_neg hkk]
  | hcons k0 v0 rest ih =>
      by_cases h0 : k0 = k
      · subst h0
        simp only [ctxSet, alGet?, if_pos rfl, if_neg hkk]
      · simp only [ctxSet, alGet?, if_neg h0, ih]

theorem alGet?_ctxStore (ctx : Ctx) (id : String) (r : Val) (k : String)
    (h : k = id ∨ k = "prev_result" ∨ k = "last_success") :
    alGet? (ctxStore ctx id r) k = some r := by
  unfold ctxStore
  by_cases h3 : k = "last_success"
  · subst h3; exact alGet?_ctxSet_self _ _ _
  · rw [alGet?_ctxSet_ne _ _ _ _ h3]
    by_cases h2 : k = "prev_result"
    · subst h2; exact alGet?_ctxSet_self _ _ _
    · rw [alGet?_ctxSet_ne _ _ _ _ h2]
      rcases h with h1 | h1 | h1
      · subst h1; exact alGet?_ctxSet_self _ _ _
      · exact absurd h1 h2
      · exact absurd h1 h3

/-- One failing attempt with further attempts remaining: record the
error, sleep, move on. -/
theorem retryLoop_cons_err (cfg : EngineCfg) (ctx : Ctx) (s : Step)
    (attempt : Nat) (restA : List Nat) (att : Nat) (err : Option String)
    (st : StepStatus) (et : Bool) (sleeps : List Nat) (e : String)
    (he : checkResult (execStep cfg s ctx attempt) = .error e)
    (hlt : attempt < s.retry_count - 1) :
    retryLoop cfg ctx s (attempt :: restA) att err st et sleeps =
      retryLoop cfg ctx s restA (attempt + 1) (some e) st et
        (sleeps ++ [2 ^ attempt]) := by
  simp only [retryLoop, he, if_pos hlt]

/-- The final failing attempt: record the error and the failed status. -/
theorem retryLoop_cons_err_last (cfg : EngineCfg) (ctx : Ctx) (s : Step)
    (attempt : Nat) (restA : List Nat) (att : Nat) (err : Option String)
    (st : StepStatus) (et : Bool) (sleeps : List Nat) (e : String)
    (he : checkResult (execStep cfg s ctx attempt) = .error e)
    (hge : ¬ attempt < s.retry_count - 1) :
    retryLoop cfg ctx s (attempt :: restA) att err st et sleeps =
      retryLoop cfg ctx s restA (attempt + 1) (some e) .failed true sleeps := by
  simp only [retryLoop, he, if_neg hge]

/-- An accepted attempt: the step succeeds and the context receives the
three writes. -/
theorem retryLoop_cons_accept (cfg : EngineCfg) (ctx : Ctx) (s : Step)
    (attempt : Nat) (restA : List Nat) (att : Nat) (err : Option String)
    (st : StepStatus) (et : Bool) (sleeps : List Nat) (r : Val)
    (he : checkResult (execStep cfg s ctx attempt) = .ok r) :
    retryLoop cfg ctx s (attempt :: restA) att err st et sleeps =
      ⟨{ s with
          attempts := attempt + 1, error := err, result := some r,
          status := .success, endTimeSet := true },
       ctxStore ctx s.step_id r, sleeps, true⟩ := by
  simp only [retryLoop, he]

/-- Exhausted attempt range: write the carried fields back. -/
theorem retryLoop_nil (cfg : EngineCfg) (ctx : Ctx) (s : Step) (att : Nat)
    (err : Option String) (st : StepStatus) (et : Bool) (sleeps : List Nat) :
    retryLoop cfg ctx s [] att err st et sleeps =
      ⟨{ s with attempts := att, error := err, status := st, endTimeSet := et },
       ctx, sleeps, false⟩ := by
  simp only [retryLoop]

/-- The retry loop on a step that fails every attempt: every attempt is
consumed, the step ends failed carrying the last error, the context is
untouched, and a backoff sleep is appended after every attempt except
the last. -/
theorem retryLoop_fail (cfg : EngineCfg) (ctx : Ctx) (s : Step) (es : Nat → String)
    (hfail : ∀ k, checkResult (execStep cfg s ctx k) = .error (es k)) :
    ∀ (m a att : Nat) (err : Option String) (st : StepStatus) (et : Bool)
      (sleeps : List Nat),
    a + (m + 1) = s.retry_count →
    retryLoop cfg ctx s (List.range' a (m + 1)) att err st et sleeps =
      ⟨{ s with
          attempts := s.retry_count, error := some (es (s.retry_count - 1)),
          status := .failed, endTimeSet := true },
       ctx, sleeps ++ (List.range' a m).map (fun k => 2 ^ k), false⟩ := by
  intro m
  induction m with
  | zero =>
      intro a att err st et sleeps hrc
      rw [List.range'_succ]
      rw [retryLoop_cons_err_last cfg ctx s a _ att err st et sleeps (es a)
        (hfail a) (by omega)]
      rw [List.range'_zero, retryLoop_nil]
      have h1 : a + 1 = s.retry_count := by omega
      have h2 : a = s.retry_count - 1 := by omega
      rw [h1, h2]
      simp
  | succ m ih =>
      intro a att err st et sleeps hrc
      rw [List.range'_succ]
      rw [retryLoop_cons_err cfg ctx s a _ att err st et sleeps (es a)
        (hfail a) (by omega)]
      rw [ih (a + 1) (a + 1) (some (es a)) st et (sleeps ++ [2 ^ a]) (by omega)]
      rw [List.range'_succ]
      simp

/-- The main loop on a step whose tool fails on every attempt: the loop
breaks with the workflow failed, the step record carrying the retry
exhaustion, the later steps untouched. -/
theorem runSteps_cons_fail (cfg : EngineCfg) (ctx : Ctx) (s : Step)
    (rest : List Step) (i idx : Nat) (sleeps : List Nat) (es : Nat → String)
    (hskip : condSkip cfg s ctx = false)
    (hfail : ∀ k, checkResult (execStep cfg s ctx k) = .error (es k))
    (hrc : 1 ≤ s.retry_count) :
    runSteps cfg (s :: rest) i ctx idx sleeps =
      ⟨{ s with
          status := .failed, startTimeSet := true, endTimeSet := true,
          attempts := s.retry_count, error := some (es (s.retry_count - 1)) } :: rest,
       ctx, true, i,
       sleeps ++ (List.range' 0 (s.retry_count - 1)).map (fun k => 2 ^ k)⟩ := by
  obtain ⟨m, hm⟩ : ∃ m, s.retry_count = m + 1 := ⟨s.retry_count - 1, by omega⟩
  have hfail' : ∀ k,
      checkResult (execStep cfg { s with status := .running, startTimeSet := true } ctx k)
        = .error (es k) := hfail
  simp only [runSteps, hskip, Bool.false_eq_true, if_false]
  rw [show List.range s.retry_count = List.range' 0 (m + 1) from by
    rw [hm, List.range_eq_range']]
  rw [retryLoop_fail cfg ctx { s with status := .running, startTimeSet := true }
    es hfail' m 0 s.attempts s.error .running s.endTimeSet sleeps (by simp; omega)]
  simp [hm]

/-- The main loop on a step accepted at its first attempt: the step ends
successful with one attempt, its result is merged into the context, and
the loop continues with the remaining steps. -/
theorem runSteps_cons_ok (cfg : EngineCfg) (ctx : Ctx) (s : Step)
    (rest : List Step) (i idx : Nat) (sleeps : List Nat) (r : Val)
    (hskip : condSkip cfg s ctx = false)
    (hok : checkResult (execStep cfg s ctx 0) = .ok r)
    (hrc : 1 ≤ s.retry_count) :
    runSteps cfg (s :: rest) i ctx idx sleeps =
      consStep { s with
          status := .success, startTimeSet := true, endTimeSet := true,
          attempts := 1, result := some r }
        (runSteps cfg rest (i + 1) (ctxStore ctx s.step_id r) i sleeps) := by
  obtain ⟨m, hm⟩ : ∃ m, s.retry_count = m + 1 := ⟨s.retry_count - 1, by omega⟩
  have hok' :
      checkResult (execStep cfg { s with status := .running, startTimeSet := true } ctx 0)
        = .ok r := hok
  simp only [runSteps, hskip, Bool.false_eq_true, if_false]
  rw [show List.range s.retry_count = 0 :: List.range' 1 m from by
    rw [hm, List.range_eq_range', List.range'_succ]]
  rw [retryLoop_cons_accept cfg ctx { s with status := .running, startTimeSet := true }
    0 (List.range' 1 m) s.attempts s.error .running s.endTimeSet sleeps r hok']

/-- The main loop on a skipped step: the step is marked skipped with no
other change and the loop continues. -/
theorem runSteps_cons_skip (cfg : EngineCfg) (ctx : Ctx) (s : Step)
    (rest : List Step) (i idx : Nat) (sleeps : List Nat)
    (hskip : condSkip cfg s ctx = true) :
    runSteps cfg (s :: rest) i ctx idx sleeps =
      consStep { s with status := .skipped }
        (runSteps cfg rest (i + 1) ctx i sleeps) := by
  simp only [runSteps, hskip, if_true]

/-- Splitting the main loop over a list append when the first part does
not fail: the second part continues from the first part's state. -/
theorem runSteps_append_ok (cfg : EngineCfg) (pre rest : List Step) :
    ∀ (i : Nat) (ctx : Ctx) (idx : Nat) (sleeps : List Nat) (ss1 : List Step)
      (ctx1 : Ctx) (idx1 : Nat) (sl1 : List Nat),
    runSteps cfg pre i ctx idx sleeps = ⟨ss1, ctx1, false, idx1, sl1⟩ →
    runSteps cfg (pre ++ rest) i ctx idx sleeps =
      consSteps ss1 (runSteps cfg rest (i + pre.length) ctx1 idx1 sl1) := by
  induction pre with
  | nil =>
      intro i ctx idx sleeps ss1 ctx1 idx1 sl1 h
      simp only [runSteps, LoopOut.mk.injEq] at h
      obtain ⟨h1, h2, _, h4, h5⟩ := h
      subst h1; subst h2; subst h4; subst h5
      simp only [List.nil_append, List.length_nil, Nat.add_zero, consSteps]
  | cons s pre' ih =>
      intro i ctx idx sleeps ss1 ctx1 idx1 sl1 h
      by_cases hc : condSkip cfg s ctx
      · rw [List.cons_append,
          runSteps_cons_skip cfg ctx s (pre' ++ rest) i idx sleeps hc]
        rw [runSteps_cons_skip cfg ctx s pre' i idx sleeps hc] at h
        rcases ho : runSteps cfg pre' (i + 1) ctx i sleeps with ⟨ss', ctx', f', idx', sl'⟩
        rw [ho] at h
        simp only [consStep, LoopOut.mk.injEq] at h
        obtain ⟨h1, h2, h3, h4, h5⟩ := h
        subst h3
        rw [ih (i + 1) ctx i sleeps ss' ctx' idx' sl' ho, ← h1, ← h2, ← h4, ← h5]
        simp only [consStep, consSteps, List.cons_append, List.length_cons]
        rw [show i + 1 + pre'.length = i + (pre'.length + 1) from by omega]
      · rw [List.cons_append]
        simp only [runSteps, hc, Bool.false_eq_true, if_false] at h ⊢
        rcases hr : retryLoop cfg ctx { s with status := .running, startTimeSet := true }
            (List.range s.retry_count) s.attempts s.error .running s.endTimeSet sleeps
          with ⟨s', ctxr, slr, b⟩
        cases b with
        | false =>
            rw [hr] at h
            simp at h
        | true =>
            dsimp only at h ⊢
            rw [hr] at h
            dsimp only at h
            rcases ho : runSteps cfg pre' (i + 1) ctxr i slr with ⟨ss', ctx', f', idx', sl'⟩
            rw [ho] at h
            simp only [consStep, LoopOut.mk.injEq] at h
            obtain ⟨h1, h2, h3, h4, h5⟩ := h
            subst h3
            rw [ih (i + 1) ctxr i slr ss' ctx' idx' sl' ho, ← h1, ← h2, ← h4, ← h5]
            simp only [consStep, consSteps, List.cons_append, List.length_cons]
            rw [show i + 1 + pre'.length = i + (pre'.length + 1) from by omega]

/-! ## Concrete fixtures used by witnesses and counterexamples -/

/-- A tool accepted at once (echo-style success result). -/
def toolEchoOk : ToolFun := fun _ _ _ =>
  .ok (.vDict (.cons "success" (.vBool true) (.cons "echoed" (.vStr "hi") .nil)))

/-- A tool returning a failure result on every invocation. -/
def toolAlwaysFail : ToolFun := fun _ _ _ =>
  .ok (.vDict (.cons "success" (.vBool false) (.cons "error" (.vStr "boom") .nil)))

/-- A tool failing on its first two invocations and succeeding after. -/
def toolFailTwice : ToolFun := fun n _ _ =>
  if n < 2 then
    .ok (.vDict (.cons "success" (.vBool false)
      (.cons "error" (.vStr (if n = 0 then "boom0" else "boom1")) .nil)))
  else
    .ok (.vDict (.cons "success" (.vBool true) .nil))

/-- Registry with the three test tools; conditions always evaluate true. -/
def cfgTest : EngineCfg :=
  ⟨[("echo", toolEchoOk), ("fail", toolAlwaysFail), ("flaky", toolFailTwice)],
   fun _ _ => true⟩

/-- Registry as above but every condition evaluates false. -/
def cfgCondFalse : EngineCfg :=
  ⟨[("echo", toolEchoOk), ("fail", toolAlwaysFail), ("flaky", toolFailTwice)],
   fun _ _ => false⟩

def stepUnknown : Step := { step_id := "s1", action := "a1", tool := "nope" }

def stepFail : Step := { step_id := "s1", action := "a1", tool := "fail" }

def stepEcho : Step := { step_id := "s1", action := "a1", tool := "echo" }

def stepEcho2 : Step := { step_id := "s2", action := "a2", tool := "echo" }

def stepFlaky : Step := { step_id := "s1", action := "a1", tool := "flaky" }

def stepCond : Step :=
  { step_id := "s1", action := "a1", tool := "echo", condition := some "c" }

def wUnknown : Workflow := { workflow_id := "w", name := "n", steps := [stepUnknown] }

def wFail1 : Workflow := { workflow_id := "w", name := "n", steps := [stepFail] }

def wFail2 : Workflow := { workflow_id := "w", name := "n", steps := [stepFail, stepEcho2] }

def wEcho1 : Workflow := { workflow_id := "w", name := "n", steps := [stepEcho] }

def wEchoFail : Workflow := { workflow_id := "w", name := "n", steps := [stepEcho, stepFail] }

def wFlaky : Workflow := { workflow_id := "w", name := "n", steps := [stepFlaky] }

def wCond : Workflow := { workflow_id := "w", name := "n", steps := [stepCond, stepEcho2] }

def wEmpty : Workflow := { workflow_id := "w", name := "n" }

/-! ## Claim theorems -/

/-- C1 (corrected): a step whose tool identifier is not registered is
NOT failed immediately.  The unknown-tool exception raised inside the
dispatch is caught by the generic per-attempt handler, so the step
consumes its full retry budget: attempts equals retry_count, a backoff
sleep occurs between consecutive attempts, the step ends failed carrying
the unknown-tool message, and the report has success false with the
later steps untouched. -/
theorem c1_unknown_tool_consumes_retry_budget
    (cfg : EngineCfg) (w : Workflow) (pre post : List Step) (s : Step)
    (preSteps : List Step) (ctx1 : Ctx) (idx1 : Nat) (sl1 : List Nat)
    (hsteps : w.steps = pre ++ s :: post)
    (hpre : runSteps cfg pre 0 w.context w.current_step_index [] =
      ⟨preSteps, ctx1, false, idx1, sl1⟩)
    (hskip : condSkip cfg s ctx1 = false)
    (hreg : regGet? cfg.registry s.tool = none)
    (hrc : 1 ≤ s.retry_count) :
    (executeWorkflow cfg w).report.success = false ∧
    (executeWorkflow cfg w).report.workflow.status = .failed ∧
    (executeWorkflow cfg w).report.workflow.steps =
      preSteps ++
        { s with
            status := .failed, startTimeSet := true, endTimeSet := true,
            attempts := s.retry_count,
            error := some ("Unknown tool: " ++ s.tool) } :: post ∧
    (executeWorkflow cfg w).sleeps =
      sl1 ++ (List.range' 0 (s.retry_count - 1)).map (fun k => 2 ^ k) := by
  have hfail : ∀ k, checkResult (execStep cfg s ctx1 k) =
      .error ("Unknown tool: " ++ s.tool) := by
    intro k
    simp only [execStep, hreg, checkResult]
  have hrun := runSteps_cons_fail cfg ctx1 s post (0 + pre.length) idx1 sl1
    (fun _ => "Unknown tool: " ++ s.tool) hskip hfail hrc
  simp only [executeWorkflow, hsteps]
  rw [runSteps_append_ok cfg pre (s :: post) 0 w.context w.current_step_index []
    preSteps ctx1 idx1 sl1 hpre, hrun]
  simp [consSteps]

/-- C1 witness: the concrete one-step plan with the unregistered tool,
run against the test registry. -/
theorem c1_witness :
    (executeWorkflow cfgTest wUnknown).report.success = false ∧
    (executeWorkflow cfgTest wUnknown).report.workflow.steps =
      [{ stepUnknown with
          status := .failed, startTimeSet := true, endTimeSet := true,
          attempts := 3, error := some "Unknown tool: nope" }] ∧
    (executeWorkflow cfgTest wUnknown).sleeps = [1, 2] := by
  have h := c1_unknown_tool_consumes_retry_budget cfgTest wUnknown [] [] stepUnknown
    [] .nil 0 [] rfl rfl rfl rfl (by decide)
  refine ⟨h.1, ?_, ?_⟩
  · rw [h.2.2.1]; rfl
  · rw [h.2.2.2]; rfl

/-- C1 counterexample: at the concrete unregistered-tool plan the claim
fails: attempts is 3 (not 0) and two backoff sleeps occur (not none). -/
theorem c1_counterexample :
    (executeWorkflow cfgTest wUnknown).report.workflow.steps.map
        (fun s => s.attempts) = [3] ∧
    (executeWorkflow cfgTest wUnknown).sleeps = [1, 2] ∧
    ¬ ((executeWorkflow cfgTest wUnknown).report.workflow.steps.map
          (fun s => s.attempts) = [0] ∧
       (executeWorkflow cfgTest wUnknown).sleeps = []) := by
  decide

/-- C2 (confirmed): a step whose tool fails (returns a falsy or
unsuccessful result, or raises) on every attempt ends failed with
attempts equal to its retry budget, the plan is failed, and every later
step is left exactly as given, hence still pending. -/
theorem c2_exhausted_retries_halt_plan
    (cfg : EngineCfg) (w : Workflow) (pre post : List Step) (s : Step)
    (preSteps : List Step) (ctx1 : Ctx) (idx1 : Nat) (sl1 : List Nat)
    (es : Nat → String)
    (hsteps : w.steps = pre ++ s :: post)
    (hpre : runSteps cfg pre 0 w.context w.current_step_index [] =
      ⟨preSteps, ctx1, false, idx1, sl1⟩)
    (hskip : condSkip cfg s ctx1 = false)
    (hfail : ∀ k, checkResult (execStep cfg s ctx1 k) = .error (es k))
    (hrc : 1 ≤ s.retry_count)
    (hpost : ∀ t ∈ post, t.status = .pending) :
    (executeWorkflow cfg w).report.workflow.steps =
      preSteps ++
        { s with
            status := .failed, startTimeSet := true, endTimeSet := true,
            attempts := s.retry_count,
            error := some (es (s.retry_count - 1)) } :: post ∧
    (executeWorkflow cfg w).report.workflow.status = .failed ∧
    (executeWorkflow cfg w).report.success = false ∧
    (∀ t ∈ (executeWorkflow cfg w).report.workflow.steps.drop
        (preSteps.length + 1), t.status = .pending) := by
  have hrun := runSteps_cons_fail cfg ctx1 s post (0 + pre.length) idx1 sl1
    es hskip hfail hrc
  have hmain : (executeWorkflow cfg w).report.workflow.steps =
      preSteps ++
        { s with
            status := .failed, startTimeSet := true, endTimeSet := true,
            attempts := s.retry_count,
            error := some (es (s.retry_count - 1)) } :: post ∧
      (executeWorkflow cfg w).report.workflow.status = .failed ∧
      (executeWorkflow cfg w).report.success = false := by
    simp only [executeWorkflow, hsteps]
    rw [runSteps_append_ok cfg pre (s :: post) 0 w.context w.current_step_index []
      preSteps ctx1 idx1 sl1 hpre, hrun]
    simp [consSteps]
  refine ⟨hmain.1, hmain.2.1, hmain.2.2, ?_⟩
  intro t ht
  rw [hmain.1] at ht
  apply hpost
  have hd : (preSteps ++
      { s with
          status := .failed, startTimeSet := true, endTimeSet := true,
          attempts := s.retry_count,
          error := some (es (s.retry_count - 1)) } :: post).drop
        (preSteps.length + 1) = post := by
    rw [show preSteps ++
        { s with
            status := .failed, startTimeSet := true, endTimeSet := true,
            attempts := s.retry_count,
            error := some (es (s.retry_count - 1)) } :: post =
      (preSteps ++
        [{ s with
            status := .failed, startTimeSet := true, endTimeSet := true,
            attempts := s.retry_count,
            error := some (es (s.retry_count - 1)) }]) ++ post from by
      simp]
    rw [show preSteps.length + 1 = (preSteps ++
        [{ s with
            status := .failed, startTimeSet := true, endTimeSet := true,
            attempts := s.retry_count,
            error := some (es (s.retry_count - 1)) }]).length from by simp]
    exact List.drop_left _ _
  rw [hd] at ht
  exact ht

/-- C2 witness: the two-step plan whose first step always fails, against
the test registry; the second step stays pending. -/
theorem c2_witness :
    (executeWorkflow cfgTest wFail2).report.workflow.steps =
      [{ stepFail with
          status := .failed, startTimeSet := true, endTimeSet := true,
          attempts := 3, error := some "boom" }, stepEcho2] ∧
    (executeWorkflow cfgTest wFail2).report.workflow.status = .failed ∧
    (executeWorkflow cfgTest wFail2).report.success = false ∧
    (∀ t ∈ (executeWorkflow cfgTest wFail2).report.workflow.steps.drop 1,
      t.status = .pending) := by
  have h := c2_exhausted_retries_halt_plan cfgTest wFail2 [] [stepEcho2] stepFail
    [] .nil 0 [] (fun _ => "boom") rfl rfl rfl (fun _ => rfl) (by decide)
    (by intro t ht; simp at ht; subst ht; rfl)
  refine ⟨?_, h.2.1, h.2.2.1, h.2.2.2⟩
  rw [h.1]; rfl

/-- C3 (confirmed): with retry budget 3 and a tool failing on every
attempt, the engine sleeps exactly twice, for two to the zeroth and two
to the first power seconds, between consecutive attempts only. -/
theorem c3_backoff_twice_for_budget_three
    (cfg : EngineCfg) (w : Workflow) (s : Step) (es : Nat → String)
    (hsteps : w.steps = [s])
    (hskip : condSkip cfg s w.context = false)
    (hrc : s.retry_count = 3)
    (hfail : ∀ k, checkResult (execStep cfg s w.context k) = .error (es k)) :
    (executeWorkflow cfg w).sleeps = [2 ^ 0, 2 ^ 1] := by
  have hrun := runSteps_cons_fail cfg w.context s [] 0 w.current_step_index []
    es hskip hfail (by omega)
  simp only [executeWorkflow, hsteps]
  rw [hrun, hrc]
  rfl

/-- C3 witness: the concrete one-step always-failing plan sleeps one
second, then two. -/
theorem c3_witness : (executeWorkflow cfgTest wFail1).sleeps = [2 ^ 0, 2 ^ 1] :=
  c3_backoff_twice_for_budget_three cfgTest wFail1 stepFail (fun _ => "boom")
    rfl rfl rfl (fun _ => rfl)

/-- C4 (corrected): the context rolling keys are written only on the
success path.  After a successful step, the entries keyed by the step id,
prev_result and last_success all hold that step's result; an executed
step that fails leaves the context completely unchanged (in particular
prev_result is NOT updated to the failed step's result), and the failed
step's own result field is untouched. -/
theorem c4_context_rolling_keys_only_on_success
    (cfg : EngineCfg) (w : Workflow) (s1 s2 : Step) (r : Val) (es : Nat → String)
    (hsteps : w.steps = [s1, s2])
    (hskip1 : condSkip cfg s1 w.context = false)
    (hok : checkResult (execStep cfg s1 w.context 0) = .ok r)
    (hrc1 : 1 ≤ s1.retry_count)
    (hskip2 : condSkip cfg s2 (ctxStore w.context s1.step_id r) = false)
    (hfail : ∀ k,
      checkResult (execStep cfg s2 (ctxStore w.context s1.step_id r) k) = .error (es k))
    (hrc2 : 1 ≤ s2.retry_count) :
    (executeWorkflow cfg w).report.workflow.context =
      ctxStore w.context s1.step_id r ∧
    alGet? (executeWorkflow cfg w).report.workflow.context "prev_result" = some r ∧
    alGet? (executeWorkflow cfg w).report.workflow.context "last_success" = some r ∧
    alGet? (executeWorkflow cfg w).report.workflow.context s1.step_id = some r ∧
    (executeWorkflow cfg w).report.workflow.steps =
      [{ s1 with
          status := .success, startTimeSet := true, endTimeSet := true,
          attempts := 1, result := some r },
       { s2 with
          status := .failed, startTimeSet := true, endTimeSet := true,
          attempts := s2.retry_count, error := some (es (s2.retry_count - 1)) }] := by
  have hrun2 := runSteps_cons_fail cfg (ctxStore w.context s1.step_id r) s2 [] 1
    0 [] es hskip2 hfail hrc2
  have hrun1 := runSteps_cons_ok cfg w.context s1 [s2] 0 w.current_step_index []
    r hskip1 hok hrc1
  have hctx : (executeWorkflow cfg w).report.workflow.context =
      ctxStore w.context s1.step_id r ∧
      (executeWorkflow cfg w).report.workflow.steps =
      [{ s1 with
          status := .success, startTimeSet := true, endTimeSet := true,
          attempts := 1, result := some r },
       { s2 with
          status := .failed, startTimeSet := true, endTimeSet := true,
          attempts := s2.retry_count, error := some (es (s2.retry_count - 1)) }] := by
    simp only [executeWorkflow, hsteps]
    rw [hrun1, hrun2]
    simp [consStep]
  refine ⟨hctx.1, ?_, ?_, ?_, hctx.2⟩
  · rw [hctx.1]; exact alGet?_ctxStore _ _ _ _ (Or.inr (Or.inl rfl))
  · rw [hctx.1]; exact alGet?_ctxStore _ _ _ _ (Or.inr (Or.inr rfl))
  · rw [hctx.1]; exact alGet?_ctxStore _ _ _ _ (Or.inl rfl)

/-- C4 witness: echo step then always-failing step; the rolling keys all
hold the echo result, the context has no entry for the failed step, and
the failed step has no result. -/
theorem c4_witness :
    alGet? (executeWorkflow cfgTest wEchoFail).report.workflow.context
      "prev_result" =
      some (.vDict (.cons "success" (.vBool true)
        (.cons "echoed" (.vStr "hi") .nil))) ∧
    alGet? (executeWorkflow cfgTest wEchoFail).report.workflow.context
      "last_success" =
      some (.vDict (.cons "success" (.vBool true)
        (.cons "echoed" (.vStr "hi") .nil))) ∧
    (executeWorkflow cfgTest wEchoFail).report.workflow.context =
      ctxStore Entries.nil "s1"
        (.vDict (.cons "success" (.vBool true)
          (.cons "echoed" (.vStr "hi") .nil))) := by
  have h := c4_context_rolling_keys_only_on_success cfgTest wEchoFail stepEcho
    stepFail
    (.vDict (.cons "success" (.vBool true) (.cons "echoed" (.vStr "hi") .nil)))
    (fun _ => "boom") rfl rfl rfl (by decide) rfl (fun _ => rfl) (by decide)
  exact ⟨h.2.1, h.2.2.1, h.1⟩

/-- C4 counterexample: in the one-step plan whose only step fails, that
step was executed (status failed, attempts 3) yet the context holds no
prev_result entry at all, contradicting the claim that prev_result holds
every executed step's result. -/
theorem c4_counterexample :
    (executeWorkflow cfgTest wFail1).report.workflow.steps.map
        (fun t => t.status) = [.failed] ∧
    (executeWorkflow cfgTest wFail1).report.workflow.steps.map
        (fun t => t.attempts) = [3] ∧
    alGet? (executeWorkflow cfgTest wFail1).report.workflow.context
      "prev_result" = none := by
  refine ⟨by decide, by decide, rfl⟩

/-! ## Resolver lemmas for C5 -/

theorem strDataAppend (a b : String) : (a ++ b).data = a.data ++ b.data := by
  cases a; cases b; rfl

theorem takeWhile_until_brace (l tail : List Char) (h : ∀ c ∈ l, c ≠ '\x7d') :
    (l ++ '\x7d' :: tail).takeWhile (fun c => !(c == '\x7d')) = l ∧
    (l ++ '\x7d' :: tail).dropWhile (fun c => !(c == '\x7d')) = '\x7d' :: tail := by
  induction l with
  | nil => simp [List.takeWhile_cons, List.dropWhile_cons]
  | cons c cs ih =>
      have hc : c ≠ '\x7d' := h c (List.mem_cons_self _ _)
      have ih' := ih (fun x hx => h x (List.mem_cons_of_mem _ hx))
      simp [List.takeWhile_cons, List.dropWhile_cons, hc, ih'.1, ih'.2]

theorem isPrefixOf_self (l : List Char) : l.isPrefixOf l = true := by
  induction l with
  | nil => rfl
  | cons c cs ih => simp [List.isPrefixOf, ih]

theorem listContainsSub_append_right (l1 l2 p : List Char)
    (h : listContainsSub l2 p = true) : listContainsSub (l1 ++ l2) p = true := by
  induction l1 with
  | nil => simpa using h
  | cons c cs ih =>
      simp only [List.cons_append, listContainsSub, Bool.or_eq_true]
      exact Or.inr ih

theorem replaceAllAux_nil (n : Nat) (pat rep : List Char) :
    replaceAllAux n [] pat rep = [] := by
  cases n <;> rfl

theorem replaceAll_self (c : Char) (cs rep : List Char) :
    replaceAllAux (c :: cs).length (c :: cs) (c :: cs) rep = rep := by
  simp only [List.length_cons, replaceAllAux, isPrefixOf_self, List.isEmpty_cons,
    Bool.not_false, Bool.and_self, if_true]
  rw [List.drop_succ_cons, List.drop_length, replaceAllAux_nil]
  simp

theorem replaceAllStr_self (s rep : String) (c : Char) (cs : List Char)
    (h : s.data = c :: cs) : replaceAllStr s s rep = rep := by
  unfold replaceAllStr
  rw [h, replaceAll_self]

theorem findMatchesAux_nil (n : Nat) : findMatchesAux n [] = [] := by
  cases n <;> rfl

theorem alGetD_eq_default (c : Entries) (k : String) (d : Val)
    (h : alGet? c k = none) : alGetD c k d = d := by
  induction c using Entries.inductionOn with
  | hnil => rfl
  | hcons k' v rest ih =>
      by_cases hk : k' = k
      · rw [alGet?, if_pos hk] at h
        exact absurd h (by simp)
      · rw [alGet?, if_neg hk] at h
        rw [alGetD, if_neg hk]
        exact ih h

theorem dottedLookup_nil_dict (parts : List String) :
    dottedLookup parts (.vDict .nil) = .vDict .nil := by
  induction parts with
  | nil => rfl
  | cons p rest ih => simpa [dottedLookup, alGetD] using ih

theorem pyStr_empty_dict : pyStr (.vDict .nil) = "\x7b\x7d" := by
  simp [pyStr, pyRepr, entriesRepr]

/-- One successful scan step of the placeholder search. -/
theorem findMatchesAux_cons_match (n : Nat) (c : Char) (rest : List Char)
    (name : String) (tail : List Char)
    (h : tryMatchAt (c :: rest) = some (name, tail)) :
    findMatchesAux (n + 1) (c :: rest) = name :: findMatchesAux n tail := by
  simp only [findMatchesAux, h]

/-- C5 (corrected): a dotted placeholder replaces through successive key
lookups, but a missing key does NOT resolve to the empty string: the
lookup defaults to an empty dict at each missing key, so when the first
path component is absent from the context the placeholder resolves to
the Python str of the empty dict, the two-character brace pair, and no
error is raised.  (The empty string is produced only for a plain
non-dotted missing key, or when the descent crosses a non-dict value or
ends at None.) -/
theorem c5_missing_dotted_key_resolves_to_brace_pair
    (ctx : Ctx) (k m p1 : String) (restParts : List String)
    (hne : m.data ≠ [])
    (hnob : ∀ c ∈ m.data, c ≠ '\x7d')
    (hdot : m.data.contains '.' = true)
    (hsplit : (splitOn '.' m.data).map String.mk = p1 :: restParts)
    (hmiss : alGet? ctx p1 = none) :
    resolveParams (.cons k (.vStr ("\x7b\x7b" ++ m ++ "\x7d\x7d")) .nil) ctx =
      .cons k (.vStr "\x7b\x7d") .nil := by
  obtain ⟨c0, cs, hm⟩ : ∃ c0 cs, m.data = c0 :: cs := by
    cases hd : m.data with
    | nil => exact absurd hd hne
    | cons a b => exact ⟨a, b, rfl⟩
  have hnob' : ∀ c ∈ (c0 :: cs), c ≠ '\x7d' := hm ▸ hnob
  have hmstr : String.mk (c0 :: cs) = m := by
    rw [← hm]
  have hvdata : ("\x7b\x7b" ++ m ++ "\x7d\x7d").data
      = '\x7b' :: '\x7b' :: ((c0 :: cs) ++ ['\x7d', '\x7d']) := by
    rw [strDataAppend, strDataAppend, hm]
    rfl
  have htry : tryMatchAt ('\x7b' :: '\x7b' :: ((c0 :: cs) ++ ['\x7d', '\x7d'])) =
      some (String.mk (c0 :: cs), []) := by
    have h1 := (takeWhile_until_brace (c0 :: cs) ['\x7d'] hnob').1
    have h2 := (takeWhile_until_brace (c0 :: cs) ['\x7d'] hnob').2
    simp only [tryMatchAt, h1, h2]
  have hfind : findMatches ("\x7b\x7b" ++ m ++ "\x7d\x7d") = [String.mk (c0 :: cs)] := by
    unfold findMatches
    rw [hvdata]
    simp only [List.length_cons]
    rw [findMatchesAux_cons_match _ _ _ _ _ htry]
    rw [findMatchesAux_nil]
  have hsub : substOne ctx ("\x7b\x7b" ++ m ++ "\x7d\x7d") (String.mk (c0 :: cs)) =
      "\x7b\x7d" := by
    rw [hmstr]
    simp only [substOne, hdot, if_true]
    rw [hsplit]
    simp only [dottedLookup]
    rw [alGetD_eq_default ctx p1 _ hmiss, dottedLookup_nil_dict]
    dsimp only
    rw [pyStr_empty_dict]
    exact replaceAllStr_self _ _ _ _ hvdata
  have hguard1 : hasSub ("\x7b\x7b" ++ m ++ "\x7d\x7d") "\x7b\x7b" = true := by
    unfold hasSub
    rw [hvdata]
    simp [listContainsSub, List.isPrefixOf]
  have hguard2 : hasSub ("\x7b\x7b" ++ m ++ "\x7d\x7d") "\x7d\x7d" = true := by
    unfold hasSub
    rw [hvdata]
    rw [show ('\x7b' :: '\x7b' :: ((c0 :: cs) ++ ['\x7d', '\x7d'])) =
      ('\x7b' :: '\x7b' :: c0 :: cs) ++ ['\x7d', '\x7d'] from by simp]
    exact listContainsSub_append_right _ _ _ (by decide)
  have hval : resolveValueS ("\x7b\x7b" ++ m ++ "\x7d\x7d") ctx = ("\x7b\x7d", ctx) := by
    unfold resolveValueS
    rw [hguard1, hguard2]
    simp only [Bool.and_self]
    rw [if_pos trivial]
    rw [hfind]
    rw [List.foldl_cons, List.foldl_nil]
    rw [hsub]
  simp only [resolveParams, resolveParamsS, hval]
  rfl

/-- C5 witness: resolving the dotted placeholder a.b against a context
that lacks the key a yields the brace pair. -/
theorem c5_witness :
    resolveParams
      (.cons "u" (.vStr ("\x7b\x7b" ++ "a.b" ++ "\x7d\x7d")) .nil)
      (.cons "x" (.vStr "1") .nil) =
      .cons "u" (.vStr "\x7b\x7d") .nil :=
  c5_missing_dotted_key_resolves_to_brace_pair
    (.cons "x" (.vStr "1") .nil) "u" "a.b" "a" ["b"]
    (by decide) (by decide) (by decide) (by decide) rfl

/-- C5 counterexample: the claim predicts the empty string for the
missing dotted key, but the resolver produces the two-character brace
pair (the Python str of an empty dict), which is not empty. -/
theorem c5_counterexample :
    resolveParams (.cons "u" (.vStr "\x7b\x7ba.b\x7d\x7d") .nil) .nil =
      .cons "u" (.vStr "\x7b\x7d") .nil ∧
    ("\x7b\x7d" : String) ≠ "" :=
  ⟨rfl, by decide⟩

/-- The main loop when every step is accepted at its first attempt and
no condition gate fires: nothing fails and the cursor ends on the last
step processed. -/
theorem runSteps_all_ok (cfg : EngineCfg) :
    ∀ (steps : List Step) (i : Nat) (ctx : Ctx) (idx : Nat) (sleeps : List Nat),
    (∀ s ∈ steps, ∀ c, condSkip cfg s c = false) →
    (∀ s ∈ steps, ∀ c, ∃ r, checkResult (execStep cfg s c 0) = .ok r) →
    (∀ s ∈ steps, 1 ≤ s.retry_count) →
    (runSteps cfg steps i ctx idx sleeps).failed = false ∧
    (runSteps cfg steps i ctx idx sleeps).idx =
      (if steps.isEmpty then idx else i + steps.length - 1) := by
  intro steps
  induction steps with
  | nil => intro i ctx idx sleeps _ _ _; exact ⟨rfl, rfl⟩
  | cons s rest ih =>
      intro i ctx idx sleeps hskip hok hrc
      obtain ⟨r, hr⟩ := hok s (List.mem_cons_self _ _) ctx
      rw [runSteps_cons_ok cfg ctx s rest i idx sleeps r
        (hskip s (List.mem_cons_self _ _) ctx) hr (hrc s (List.mem_cons_self _ _))]
      have hrest := ih (i + 1) (ctxStore ctx s.step_id r) i sleeps
        (fun t ht c => hskip t (List.mem_cons_of_mem _ ht) c)
        (fun t ht c => hok t (List.mem_cons_of_mem _ ht) c)
        (fun t ht => hrc t (List.mem_cons_of_mem _ ht))
      refine ⟨by simp [consStep, hrest.1], ?_⟩
      have h2 := hrest.2
      simp only [consStep]
      rw [h2]
      cases rest with
      | nil => simp
      | cons t ts =>
          simp only [List.isEmpty_cons, Bool.false_eq_true, if_false,
            List.length_cons]
          omega

/-- C6 (corrected): for every NONEMPTY plan in which no step is skipped
and every step's tool is accepted at its first attempt, the report has
success true and the final cursor equals the number of steps minus one.
(A zero-step plan also reports success true, but its cursor stays at its
initial value, zero, which differs from the minus-one convention of the
claim.) -/
theorem c6_clean_run_reports_success
    (cfg : EngineCfg) (w : Workflow)
    (hne : w.steps ≠ [])
    (hskip : ∀ s ∈ w.steps, ∀ c, condSkip cfg s c = false)
    (hok : ∀ s ∈ w.steps, ∀ c, ∃ r, checkResult (execStep cfg s c 0) = .ok r)
    (hrc : ∀ s ∈ w.steps, 1 ≤ s.retry_count) :
    (executeWorkflow cfg w).report.success = true ∧
    (executeWorkflow cfg w).report.workflow.current_step_index =
      w.steps.length - 1 := by
  have h := runSteps_all_ok cfg w.steps 0 w.context w.current_step_index []
    hskip hok hrc
  have hemp : w.steps.isEmpty = false := by
    cases hs : w.steps with
    | nil => exact absurd hs hne
    | cons a b => rfl
  constructor
  · simp [executeWorkflow, h.1]
  · simp only [executeWorkflow]
    rw [h.2, hemp]
    simp

/-- C6 witness: the one-step echo plan reports success with the cursor
on its only step. -/
theorem c6_witness :
    (executeWorkflow cfgTest wEcho1).report.success = true ∧
    (executeWorkflow cfgTest wEcho1).report.workflow.current_step_index =
      wEcho1.steps.length - 1 := by
  apply c6_clean_run_reports_success
  · simp [wEcho1]
  · intro s hs c
    simp only [wEcho1, List.mem_singleton] at hs
    subst hs
    rfl
  · intro s hs c
    simp only [wEcho1, List.mem_singleton] at hs
    subst hs
    exact ⟨_, rfl⟩
  · intro s hs
    simp only [wEcho1, List.mem_singleton] at hs
    subst hs
    decide

/-- C6 counterexample: the zero-step plan vacuously has no failing step
and no false condition, and its report has success true, but its cursor
stays zero while the step count minus one is minus one. -/
theorem c6_counterexample :
    (executeWorkflow cfgTest wEmpty).report.success = true ∧
    (executeWorkflow cfgTest wEmpty).report.workflow.current_step_index = 0 ∧
    ((0 : Int) ≠ (wEmpty.steps.length : Int) - 1) := by
  refine ⟨rfl, rfl, by decide⟩

/-- C7 (corrected): the execute entry point never raises.  Ordinary step
failures are captured in step error and status fields and surfaced in
the report, and a plan with zero steps is NOT rejected as a contract
violation: it runs normally and returns a completed report with success
true, an unchanged context and cursor, and no backoff sleeps. -/
theorem c7_zero_step_plan_returns_success
    (cfg : EngineCfg) (w : Workflow) (hempty : w.steps = []) :
    (executeWorkflow cfg w).report.success = true ∧
    (executeWorkflow cfg w).report.workflow.status = .completed ∧
    (executeWorkflow cfg w).report.workflow.context = w.context ∧
    (executeWorkflow cfg w).report.workflow.current_step_index =
      w.current_step_index ∧
    (executeWorkflow cfg w).sleeps = [] := by
  simp [executeWorkflow, hempty, runSteps]

/-- C7 witness: the concrete empty plan returns the success report. -/
theorem c7_witness :
    (executeWorkflow cfgTest wEmpty).report.success = true ∧
    (executeWorkflow cfgTest wEmpty).report.workflow.status = .completed ∧
    (executeWorkflow cfgTest wEmpty).report.workflow.context = wEmpty.context ∧
    (executeWorkflow cfgTest wEmpty).report.workflow.current_step_index =
      wEmpty.current_step_index ∧
    (executeWorkflow cfgTest wEmpty).sleeps = [] :=
  c7_zero_step_plan_returns_success cfgTest wEmpty rfl

/-- C7 counterexample: the zero-step plan does not raise: execution
returns the ordinary completed report value, with success true. -/
theorem c7_counterexample :
    executeWorkflow cfgTest wEmpty =
      ⟨⟨true,
        { wEmpty with
            status := .completed, startTimeSet := true, endTimeSet := true },
        none⟩, []⟩ := rfl

/-- C8 (confirmed): a step whose condition gate evaluates false against
the current context is marked skipped, its attempts counter is left
untouched, and the loop continues with the remaining steps from the
same context instead of halting. -/
theorem c8_false_condition_skips_without_halting
    (cfg : EngineCfg) (w : Workflow) (pre post : List Step) (s : Step)
    (preSteps : List Step) (ctx1 : Ctx) (idx1 : Nat) (sl1 : List Nat)
    (hsteps : w.steps = pre ++ s :: post)
    (hpre : runSteps cfg pre 0 w.context w.current_step_index [] =
      ⟨preSteps, ctx1, false, idx1, sl1⟩)
    (hskip : condSkip cfg s ctx1 = true) :
    (executeWorkflow cfg w).report.workflow.steps =
      preSteps ++ { s with status := .skipped } ::
        (runSteps cfg post (pre.length + 1) ctx1 pre.length sl1).steps ∧
    ({ s with status := .skipped } : Step).attempts = s.attempts ∧
    (executeWorkflow cfg w).report.workflow.context =
      (runSteps cfg post (pre.length + 1) ctx1 pre.length sl1).ctx ∧
    (executeWorkflow cfg w).report.success =
      !(runSteps cfg post (pre.length + 1) ctx1 pre.length sl1).failed := by
  rcases ho2 : runSteps cfg post (pre.length + 1) ctx1 pre.length sl1
    with ⟨ss2, ctx2, f2, idx2, sl2⟩
  have hrun := runSteps_cons_skip cfg ctx1 s post (0 + pre.length) idx1 sl1 hskip
  simp only [Nat.zero_add] at hrun
  rw [ho2] at hrun
  have happ := runSteps_append_ok cfg pre (s :: post) 0 w.context
    w.current_step_index [] preSteps ctx1 idx1 sl1 hpre
  refine ⟨?_, rfl, ?_, ?_⟩
  · simp only [executeWorkflow, hsteps]
    rw [happ]
    simp only [Nat.zero_add]
    rw [hrun]
    simp [consSteps, consStep]
  · simp only [executeWorkflow, hsteps]
    rw [happ]
    simp only [Nat.zero_add]
    rw [hrun]
    simp [consSteps, consStep]
  · simp only [executeWorkflow, hsteps]
    rw [happ]
    simp only [Nat.zero_add]
    rw [hrun]
    cases f2 <;> simp [consSteps, consStep]

/-- C8 witness: the two-step plan whose first step has a condition that
evaluates false: the first step is skipped with zero attempts and the
plan continues, running the echo step and reporting success. -/
theorem c8_witness :
    (executeWorkflow cfgCondFalse wCond).report.workflow.steps =
      [] ++ { stepCond with status := .skipped } ::
        (runSteps cfgCondFalse [stepEcho2] 1 .nil 0 []).steps ∧
    ({ stepCond with status := .skipped } : Step).attempts = stepCond.attempts ∧
    (executeWorkflow cfgCondFalse wCond).report.workflow.context =
      (runSteps cfgCondFalse [stepEcho2] 1 .nil 0 []).ctx ∧
    (executeWorkflow cfgCondFalse wCond).report.success =
      !(runSteps cfgCondFalse [stepEcho2] 1 .nil 0 []).failed :=
  c8_false_condition_skips_without_halting cfgCondFalse wCond [] [stepEcho2]
    stepCond [] .nil 0 [] rfl rfl rfl

/-- C9 (confirmed): the parameter resolver is pure.  In the
state-passing embedding every context access returns the context
unchanged, so resolving returns the input context untouched, and
resolving the same pair again (through the context returned by the
first resolution) produces the identical result. -/
theorem c9_resolver_is_pure (params : Entries) (ctx : Ctx) :
    (resolveParamsS params .nil ctx).2 = ctx ∧
    resolveParamsS params .nil ((resolveParamsS params .nil ctx).2) =
      resolveParamsS params .nil ctx := by
  have key : ∀ (ps acc : Entries) (c : Ctx), (resolveParamsS ps acc c).2 = c := by
    intro ps
    induction ps using Entries.inductionOn with
    | hnil => intro acc c; rfl
    | hcons k v rest ih =>
        intro acc c
        cases v with
        | vStr s =>
            have hv : resolveValueS s c = ((resolveValueS s c).1, c) := by
              unfold resolveValueS
              by_cases hg : (hasSub s "\x7b\x7b" && hasSub s "\x7d\x7d") = true
              · rw [if_pos hg]
              · rw [if_neg hg]
            simp only [resolveParamsS]
            rw [hv]
            exact ih _ _
        | vNone => exact ih _ _
        | vBool b => exact ih _ _
        | vInt i => exact ih _ _
        | vDict d => exact ih _ _
  refine ⟨key params .nil ctx, ?_⟩
  rw [key params .nil ctx]

/-- C10 (confirmed): the success path updates status, result and the end
time but never clears the error field, so a step that fails and then
succeeds on a later attempt ends with status success AND a non-null
error holding the message of its last failed attempt; the report has
success true. -/
theorem c10_stale_error_survives_late_success
    (cfg : EngineCfg) (w : Workflow) (s : Step) (e0 e1 : String) (r : Val)
    (hsteps : w.steps = [s])
    (hskip : condSkip cfg s w.context = false)
    (hrc : s.retry_count = 3)
    (h0 : checkResult (execStep cfg s w.context 0) = .error e0)
    (h1 : checkResult (execStep cfg s w.context 1) = .error e1)
    (h2 : checkResult (execStep cfg s w.context 2) = .ok r) :
    (executeWorkflow cfg w).report.success = true ∧
    (executeWorkflow cfg w).report.workflow.steps =
      [{ s with
          status := .success, startTimeSet := true, endTimeSet := true,
          attempts := 3, result := some r, error := some e1 }] ∧
    (executeWorkflow cfg w).sleeps = [2 ^ 0, 2 ^ 1] := by
  have h0' : checkResult
      (execStep cfg { s with status := .running, startTimeSet := true } w.context 0)
      = .error e0 := h0
  have h1' : checkResult
      (execStep cfg { s with status := .running, startTimeSet := true } w.context 1)
      = .error e1 := h1
  have h2' : checkResult
      (execStep cfg { s with status := .running, startTimeSet := true } w.context 2)
      = .ok r := h2
  simp only [executeWorkflow, hsteps]
  simp only [runSteps, hskip, Bool.false_eq_true, if_false]
  rw [show List.range s.retry_count = 0 :: 1 :: 2 :: [] from by rw [hrc]; rfl]
  rw [retryLoop_cons_err cfg w.context _ 0 _ s.attempts s.error .running
    s.endTimeSet [] e0 h0' (by simp [hrc])]
  rw [retryLoop_cons_err cfg w.context _ 1 _ 1 (some e0) .running
    s.endTimeSet ([] ++ [2 ^ 0]) e1 h1' (by simp [hrc])]
  rw [retryLoop_cons_accept cfg w.context _ 2 _ 2 (some e1) .running
    s.endTimeSet (([] ++ [2 ^ 0]) ++ [2 ^ 1]) r h2']
  simp [consStep]

/-- C10 witness: the flaky tool fails twice with distinct messages and
then succeeds; the final report shows the step successful with the
second failure message still in its error field. -/
theorem c10_witness :
    (executeWorkflow cfgTest wFlaky).report.success = true ∧
    (executeWorkflow cfgTest wFlaky).report.workflow.steps =
      [{ stepFlaky with
          status := .success, startTimeSet := true, endTimeSet := true,
          attempts := 3,
          result := some (.vDict (.cons "success" (.vBool true) .nil)),
          error := some "boom1" }] ∧
    (executeWorkflow cfgTest wFlaky).sleeps = [2 ^ 0, 2 ^ 1] :=
  c10_stale_error_survives_late_success cfgTest wFlaky stepFlaky "boom0" "boom1"
    (.vDict (.cons "success" (.vBool true) .nil)) rfl rfl rfl rfl rfl rfl
